import Mathlib

/-!
Shallow embedding of the `wire` UART-bridge firmware (src/src/wire.cpp,
src/src/commands.cpp, src/src/main.cpp, src/src/config.h, src/src/wire.h)
and proofs about the claims of its specification.

Modelling conventions:
* Bytes are `Nat`s; byte buffers and queues are `List Nat`.
* A serial endpoint's externally visible behaviour during one pump tick is
  captured by an event log (`Ev`): read calls, write calls (with the bytes the
  sink actually accepted) and flush calls.
* Partial reads and partial writes are modelled by environment schedules:
  `readRet` bounds how many bytes a `readBytes` call actually returns, and
  `accept j` gives how many bytes the sink accepts on the j-th write call of a
  tick (always clipped to the number requested, as the platform write
  primitive never reports more than it was given).
* The inner `while (off < n) off += write(...)` busy-loop is embedded with
  explicit fuel (`drainGo`); `none` models the loop still spinning (it has no
  exit other than the cumulative write counts reaching `n`).
-/

namespace Wire

/-- config.h: `WIRE_TX_PIN` (default 18). -/
def WIRE_TX_PIN : Nat := 18

/-- config.h: `WIRE_RX_PIN` (default 19). -/
def WIRE_RX_PIN : Nat := 19

/-- config.h: `WIRE_BAUD` (default 115200). -/
def WIRE_BAUD : Nat := 115200

/-- config.h: `BRIDGE_BUF_SZ` (default 32768), the staging buffer size. -/
def BRIDGE_BUF_SZ : Nat := 32768

/-- wire.cpp line 20: `constexpr int WIRE_RXBUF = 32768`. -/
def WIRE_RXBUF : Nat := 32768

/-- The ESP32 Arduino core's `SERIAL_8N1` frame-config constant (0x800001c),
passed to `Serial1.begin` in wire.cpp line 21. -/
def SERIAL_8N1 : Nat := 0x800001c

/-- wire.cpp lines 7-14, helper `write_chunk`: given `room` (the sink's
`availableForWrite()`) and `n` (bytes the caller wants to push), it computes
the byte count `send` actually passed to `s.write`.  Faithful to the source:
the `room` cap is applied only when `room` is nonzero, and the 256 cap is
applied afterwards unconditionally.  Note this helper is never called by any
of the three bridge loops in wire.cpp. -/
def write_chunk (room n : Nat) : Nat :=
  let send := n
  let send := if room ≠ 0 ∧ send > room then room else send
  if send > 256 then 256 else send

/-- One endpoint interaction recorded during a pump tick. -/
inductive Ev where
  | read (req ret : Nat)
  | write (req : Nat) (accepted : List Nat)
  | flush (block : Bool)
deriving DecidableEq, Repr

/-- Whether an event is a flush call. -/
def Ev.isFlush : Ev → Bool
  | .flush _ => true
  | _ => false

/-- Whether an event is a write call. -/
def Ev.isWrite : Ev → Bool
  | .write _ _ => true
  | _ => false

/-- Number of flush calls in an event list. -/
def countFlush (evs : List Ev) : Nat :=
  evs.countP Ev.isFlush

/-- The inner drain loop of a pump tick, wire.cpp line 40 (and lines 56, 75):
`size_t off = 0; while (off < n) off += sink.write(buf + off, n - off);`.
`pending` is `buf[off..n)`, the bytes not yet accepted; `j` is the index of
the next write call (used to look up the environment's acceptance schedule
`accept`); `fuel` bounds how many write calls we unfold (the source loop has
no bound: `none` means the loop is still spinning after `fuel` calls).
Each write call requests all of `pending` — the source applies no cap here —
and the sink accepts some count `≤` requested, per the platform contract.
Returns the per-call trace: (requested byte count, bytes accepted). -/
def drainGo (accept : Nat → Nat) : Nat → Nat → List Nat → Option (List (Nat × List Nat))
  | _, _, [] => some []
  | 0, _, _ :: _ => none
  | fuel + 1, j, p :: ps =>
    let pending := p :: ps
    let req := pending.length
    let acc := min (accept j) req
    match drainGo accept fuel (j + 1) (pending.drop acc) with
    | none => none
    | some tr => some ((req, pending.take acc) :: tr)

/-- All bytes accepted by the sink across a drain trace, in call order. -/
def joinBytes (tr : List (Nat × List Nat)) : List Nat :=
  (tr.map Prod.snd).flatten

/-- Total number of bytes accepted across a drain trace (the cumulative sum
of the counts returned by the sink's write calls). -/
def totalBytes (tr : List (Nat × List Nat)) : Nat :=
  (tr.map fun e => e.2.length).sum

/-- Checks that every write call in a drain trace requested exactly the bytes
remaining to write at the moment of the call, starting from `rem` remaining. -/
def reqsExact : Nat → List (Nat × List Nat) → Bool
  | _, [] => true
  | rem, (req, bs) :: tl => req == rem && reqsExact (rem - bs.length) tl

/-- State of one bridge direction: the source endpoint's pending receive
queue, the contents of this direction's static staging buffer, the bytes the
sink endpoint has accepted so far (in order), and the log of endpoint calls
made so far. -/
structure DirState where
  srcQ : List Nat
  buf : List Nat
  sinkLog : List Nat
  events : List Ev
deriving DecidableEq, Repr

/-- One pump tick for one direction, the body of the `for(;;)` loop of
`run_receive_bridge` (wire.cpp lines 35-42; identically lines 51-58 of
`run_send_bridge` and each half of `run_bidi_bridge`):

  size_t n = source.available();
  if (n) {
    if (n > sizeof(buf)) n = sizeof(buf);
    n = source.readBytes(buf, n);
    size_t off = 0;
    while (off < n) off += sink.write(buf + off, n - off);
    sink.flush(false);
  }

`readRet` is the environment's bound on how many bytes `readBytes` actually
returns (partial reads allowed); `accept` is the sink's per-write-call
acceptance schedule.  `none` models the inner drain loop never completing
(a sink that keeps returning short counts past the fuel bound). -/
def pumpTick (readRet : Nat) (accept : Nat → Nat) (st : DirState) : Option DirState :=
  let n0 := st.srcQ.length
  if n0 = 0 then some st
  else
    let want := min n0 BRIDGE_BUF_SZ
    let r := min readRet want
    let buf' := st.srcQ.take r ++ st.buf.drop r
    let pending := buf'.take r
    match drainGo accept pending.length 0 pending with
    | none => none
    | some tr =>
      some { srcQ := st.srcQ.drop r
             buf := buf'
             sinkLog := st.sinkLog ++ joinBytes tr
             events := st.events ++ [Ev.read want r]
               ++ tr.map (fun e => Ev.write e.1 e.2) ++ [Ev.flush false] }

/-- Runs `T` consecutive pump ticks of one direction starting at tick index
`t0`.  Before tick `t`, the environment delivers `arrive t` fresh bytes into
the source endpoint's receive queue; `rr t` and `acc t` are that tick's read
and write-acceptance schedules.  `none` propagates a tick whose drain loop
never completed. -/
def runTicksFrom (arrive : Nat → List Nat) (rr : Nat → Nat) (acc : Nat → Nat → Nat) :
    Nat → Nat → DirState → Option DirState
  | _, 0, st => some st
  | t0, T + 1, st =>
    match pumpTick (rr t0) (acc t0) { st with srcQ := st.srcQ ++ arrive t0 } with
    | none => none
    | some st' => runTicksFrom arrive rr acc (t0 + 1) T st'

/-- Runs `T` pump ticks starting from tick 0. -/
def runTicks (arrive : Nat → List Nat) (rr : Nat → Nat) (acc : Nat → Nat → Nat)
    (T : Nat) (st : DirState) : Option DirState :=
  runTicksFrom arrive rr acc 0 T st

/-- All bytes the environment delivers during ticks `t0, …, t0+T-1`, in
arrival order. -/
def arrivedSlice (arrive : Nat → List Nat) : Nat → Nat → List Nat
  | _, 0 => []
  | t0, T + 1 => arrive t0 ++ arrivedSlice arrive (t0 + 1) T

/-- State of the bidirectional bridge (wire.cpp lines 63-90): one direction
state per stream.  `wireToUsb` is the Far→Near direction (source `Serial1`,
sink `Serial`, staging buffer `buf_wire_to_usb`); `usbToWire` is the
Near→Far direction (source `Serial`, sink `Serial1`, staging buffer
`buf_usb_to_wire`).  The two `buf` fields are the two distinct static
arrays. -/
structure BidiState where
  wireToUsb : DirState
  usbToWire : DirState
deriving DecidableEq, Repr

/-- Per-tick environment for one direction (read-return bound and write
acceptance schedule). -/
structure TickEnv where
  rr : Nat
  acc : Nat → Nat

/-- One iteration of `run_bidi_bridge`'s `for(;;)` loop (wire.cpp lines
69-89): first pump Serial1→Serial using `buf_wire_to_usb`, then pump
Serial→Serial1 using `buf_usb_to_wire`, then `delay(0)`. -/
def bidiTick (envA envB : TickEnv) (st : BidiState) : Option BidiState :=
  match pumpTick envA.rr envA.acc st.wireToUsb with
  | none => none
  | some d1 =>
    match pumpTick envB.rr envB.acc st.usbToWire with
    | none => none
    | some d2 => some ⟨d1, d2⟩

/-- Control configuration of a command handler that has entered a bridge run
loop over state type `σ`: either still iterating the `for(;;)` loop, stuck
inside an inner drain loop that never completes, or returned to the console
with an exit code.  The source loops contain no `break`, `return` or `goto`,
so no step rule below ever produces `returned`. -/
inductive LoopState (σ : Type) where
  | running (s : σ)
  | stalled (s : σ)
  | returned (code : Int)

/-- Whether a loop configuration has returned control to its caller. -/
def LoopState.isReturned {σ : Type} : LoopState σ → Bool
  | .returned _ => true
  | _ => false

/-- One step of a bridge `for(;;)` loop: iteration `k` applies the loop body
(`tick k`); a body whose inner drain loop never completes leaves the
configuration stalled forever; a returned configuration would stay returned
(no such configuration is ever produced, as the body has no exit path). -/
def loopStep {σ : Type} (tick : Nat → σ → Option σ) (k : Nat) :
    LoopState σ → LoopState σ
  | .running s =>
    match tick k s with
    | some s' => .running s'
    | none => .stalled s
  | .stalled s => .stalled s
  | .returned c => .returned c

/-- Runs `n` iterations of a bridge loop starting at iteration index `k`. -/
def loopRun {σ : Type} (tick : Nat → σ → Option σ) : Nat → Nat → LoopState σ → LoopState σ
  | _, 0, c => c
  | k, n + 1, c => loopRun tick (k + 1) n (loopStep tick k c)

/-- The loop body of `run_receive_bridge` (wire.cpp lines 34-44) as a
per-iteration tick over the Far→Near direction state. -/
def run_receive_iter (env : Nat → TickEnv) (k : Nat) (st : DirState) : Option DirState :=
  pumpTick (env k).rr (env k).acc st

/-- The loop body of `run_send_bridge` (wire.cpp lines 50-60) as a
per-iteration tick over the Near→Far direction state. -/
def run_send_iter (env : Nat → TickEnv) (k : Nat) (st : DirState) : Option DirState :=
  pumpTick (env k).rr (env k).acc st

/-- The loop body of `run_bidi_bridge` (wire.cpp lines 69-89) as a
per-iteration tick over the bidirectional state. -/
def run_bidi_iter (envA envB : Nat → TickEnv) (k : Nat) (st : BidiState) : Option BidiState :=
  bidiTick (envA k) (envB k) st

/-- Hardware configuration state touched by `wire_init` (wire.cpp lines
16-28): the one-shot latch `wire_inited` (line 5), the Far endpoint
(`Serial1`) configuration, the Near endpoint (`Serial`) configuration, and a
ghost counter of how many times the initialization body (lines 20-27) has
actually executed. -/
structure HwState where
  wire_inited : Bool
  s1baud : Nat
  s1mode : Nat
  s1rxPin : Nat
  s1txPin : Nat
  s1invert : Bool
  s1rxBuf : Nat
  s1txBuf : Nat
  usbBaud : Nat
  usbRxBuf : Nat
  usbTxBuf : Nat
  initCount : Nat
deriving DecidableEq, Repr

/-- wire.cpp lines 16-28, `wire_init`: returns immediately when the
`wire_inited` latch is set; otherwise runs
`Serial1.begin(WIRE_BAUD, SERIAL_8N1, WIRE_RX_PIN, WIRE_TX_PIN, false, WIRE_RXBUF)`,
`Serial1.setRxBufferSize(32768)`, `Serial1.setTxBufferSize(32768)`,
`Serial.setRxBufferSize(32768)`, `Serial.setTxBufferSize(32768)` and sets the
latch.  The ghost `initCount` counts executions of this body. -/
def wire_init (st : HwState) : HwState :=
  if st.wire_inited then st
  else
    { st with
      s1baud := WIRE_BAUD
      s1mode := SERIAL_8N1
      s1rxPin := WIRE_RX_PIN
      s1txPin := WIRE_TX_PIN
      s1invert := false
      s1rxBuf := 32768
      s1txBuf := 32768
      usbRxBuf := 32768
      usbTxBuf := 32768
      wire_inited := true
      initCount := st.initCount + 1 }

/-- Each bridge entry point calls `wire_init()` as its first statement
(wire.cpp lines 32, 48, 64) before entering its loop. -/
def bridge_entry_init : HwState → HwState := wire_init

/-- The three bridge run loops declared in wire.h lines 9-11. -/
inductive BridgeKind where
  | receiveOnly
  | sendOnly
  | bidi
deriving DecidableEq, Repr

/-- commands.cpp line 34: the body of `cmd_receive` calls `run_bidi_bridge()`. -/
def cmd_receive_target : BridgeKind := .bidi

/-- commands.cpp line 44: the body of `cmd_send` calls `run_bidi_bridge()`. -/
def cmd_send_target : BridgeKind := .bidi

/-- main.cpp lines 46-49: the console registers exactly the commands
`receive` and `send`, dispatching to the respective handler's bridge call. -/
def dispatch : String → Option BridgeKind
  | "receive" => some cmd_receive_target
  | "send" => some cmd_send_target
  | _ => none

theorem joinBytes_nil : joinBytes [] = [] := rfl

theorem joinBytes_cons (e : Nat × List Nat) (l : List (Nat × List Nat)) :
    joinBytes (e :: l) = e.2 ++ joinBytes l := by
  simp [joinBytes]

theorem totalBytes_eq_length (tr : List (Nat × List Nat)) :
    totalBytes tr = (joinBytes tr).length := by
  induction tr with
  | nil => rfl
  | cons e l ih => simp [totalBytes, joinBytes] at ih ⊢; omega

/-- Whenever the drain loop completes, the bytes the sink accepted are exactly
the pending bytes, in order (no loss, no duplication, no reordering). -/
theorem drainGo_some_flatten (accept : Nat → Nat) :
    ∀ (fuel j : Nat) (pending : List Nat) (tr : List (Nat × List Nat)),
      drainGo accept fuel j pending = some tr → joinBytes tr = pending := by
  intro fuel
  induction fuel with
  | zero =>
    intro j pending tr h
    cases pending with
    | nil => simp [drainGo] at h; subst h; rfl
    | cons p ps => simp [drainGo] at h
  | succ f ih =>
    intro j pending tr h
    cases pending with
    | nil => simp [drainGo] at h; subst h; rfl
    | cons p ps =>
      simp only [drainGo] at h
      split at h
      · exact absurd h (by simp)
      · rename_i tr' hm
        obtain rfl : _ :: tr' = tr := Option.some.inj h
        rw [joinBytes_cons]
        have := ih (j + 1) _ _ hm
        simp only [this]
        exact List.take_append_drop _ _

/-- Whenever every write call accepts at least one byte, the drain loop
completes within `pending.length` write calls. -/
theorem drainGo_succeeds (accept : Nat → Nat) (hacc : ∀ i, 1 ≤ accept i) :
    ∀ (fuel j : Nat) (pending : List Nat), pending.length ≤ fuel →
      ∃ tr, drainGo accept fuel j pending = some tr := by
  intro fuel
  induction fuel with
  | zero =>
    intro j pending hlen
    cases pending with
    | nil => exact ⟨[], rfl⟩
    | cons p ps => simp at hlen
  | succ f ih =>
    intro j pending hlen
    cases pending with
    | nil => exact ⟨[], rfl⟩
    | cons p ps =>
      have hmin : 1 ≤ min (accept j) (p :: ps).length := by
        have h1 := hacc j
        have h2 : 1 ≤ (p :: ps).length := by simp
        omega
      have hdrop : ((p :: ps).drop (min (accept j) (p :: ps).length)).length ≤ f := by
        rw [List.length_drop]
        simp only [List.length_cons] at hlen ⊢
        omega
      obtain ⟨tr, htr⟩ := ih (j + 1) _ hdrop
      refine ⟨((p :: ps).length, (p :: ps).take (min (accept j) (p :: ps).length)) :: tr, ?_⟩
      simp only [drainGo]
      rw [htr]

/-- Against a sink whose write calls persistently accept zero bytes, the
drain loop never completes, for any number of unfolded iterations. -/
theorem drainGo_stuck (accept : Nat → Nat) (hacc : ∀ i, accept i = 0) :
    ∀ (fuel j : Nat) (p : Nat) (ps : List Nat),
      drainGo accept fuel j (p :: ps) = none := by
  intro fuel
  induction fuel with
  | zero => intro j p ps; rfl
  | succ f ih =>
    intro j p ps
    simp only [drainGo, hacc j, Nat.zero_min, List.drop_zero]
    rw [ih (j + 1) p ps]

/-- Whenever the drain loop completes, every one of its write calls requested
exactly the number of bytes still unaccounted for at the moment of the call. -/
theorem drainGo_reqs (accept : Nat → Nat) :
    ∀ (fuel j : Nat) (pending : List Nat) (tr : List (Nat × List Nat)),
      drainGo accept fuel j pending = some tr → reqsExact pending.length tr = true := by
  intro fuel
  induction fuel with
  | zero =>
    intro j pending tr h
    cases pending with
    | nil => simp [drainGo] at h; subst h; rfl
    | cons p ps => simp [drainGo] at h
  | succ f ih =>
    intro j pending tr h
    cases pending with
    | nil => simp [drainGo] at h; subst h; rfl
    | cons p ps =>
      simp only [drainGo] at h
      split at h
      · exact absurd h (by simp)
      · rename_i tr' hm
        obtain rfl : _ :: tr' = tr := Option.some.inj h
        have hih := ih (j + 1) _ _ hm
        simp only [reqsExact, List.length_take, List.length_drop] at hih ⊢
        rw [Bool.and_eq_true, beq_iff_eq]
        refine ⟨rfl, ?_⟩
        have hle : min (accept j) (p :: ps).length ≤ (p :: ps).length := Nat.min_le_right _ _
        have : min (min (accept j) (p :: ps).length) (p :: ps).length
            = min (accept j) (p :: ps).length := Nat.min_eq_left hle
        rw [this]
        exact hih

/-- The number of bytes the tick's `readBytes` call actually returns: the
requested count is `min available BRIDGE_BUF_SZ`, and the environment bound
`rr` clips it (partial reads). -/
def tickRead (rr : Nat) (st : DirState) : Nat :=
  min rr (min st.srcQ.length BRIDGE_BUF_SZ)

/-- The post-state of a pump tick that saw a nonempty source queue, read
`tickRead rr st` bytes and drained them with trace `tr`. -/
def tickResult (rr : Nat) (st : DirState) (tr : List (Nat × List Nat)) : DirState :=
  { srcQ := st.srcQ.drop (tickRead rr st)
    buf := st.srcQ.take (tickRead rr st) ++ st.buf.drop (tickRead rr st)
    sinkLog := st.sinkLog ++ joinBytes tr
    events := st.events ++ [Ev.read (min st.srcQ.length BRIDGE_BUF_SZ) (tickRead rr st)]
      ++ tr.map (fun e => Ev.write e.1 e.2) ++ [Ev.flush false] }

theorem tickRead_le (rr : Nat) (st : DirState) : tickRead rr st ≤ st.srcQ.length := by
  unfold tickRead
  omega

theorem pending_take (st : DirState) (r : Nat) (hr : r ≤ st.srcQ.length) :
    (st.srcQ.take r ++ st.buf.drop r).take r = st.srcQ.take r := by
  rw [List.take_append_of_le_length (by rw [List.length_take]; omega), List.take_take,
    Nat.min_self]

theorem pending_length (st : DirState) (r : Nat) (hr : r ≤ st.srcQ.length) :
    (st.srcQ.take r).length = r := by
  rw [List.length_take]; omega

/-- A pump tick with an empty source queue is a complete no-op. -/
theorem pumpTick_empty (rr : Nat) (acc : Nat → Nat) (st : DirState) (hq : st.srcQ = []) :
    pumpTick rr acc st = some st := by
  simp [pumpTick, hq]

/-- A pump tick with a nonempty source queue computes exactly `tickResult`
once its drain completes with trace `tr`. -/
theorem pumpTick_eq_some (rr : Nat) (acc : Nat → Nat) (st : DirState)
    (tr : List (Nat × List Nat)) (hne : st.srcQ ≠ [])
    (htr : drainGo acc (tickRead rr st) 0 (st.srcQ.take (tickRead rr st)) = some tr) :
    pumpTick rr acc st = some (tickResult rr st tr) := by
  have hlen : st.srcQ.length ≠ 0 := by
    simpa [List.length_eq_zero] using hne
  have hrle : tickRead rr st ≤ st.srcQ.length := tickRead_le rr st
  have hpend := pending_take st (tickRead rr st) hrle
  have hplen := pending_length st (tickRead rr st) hrle
  simp only [pumpTick, if_neg hlen]
  simp only [tickRead] at hpend hplen htr
  rw [hpend, hplen, htr]
  rfl

/-- A successful pump tick with a nonempty source queue is `tickResult` for
some completed drain trace. -/
theorem pumpTick_some_inv (rr : Nat) (acc : Nat → Nat) (st st' : DirState)
    (hne : st.srcQ ≠ []) (h : pumpTick rr acc st = some st') :
    ∃ tr, drainGo acc (tickRead rr st) 0 (st.srcQ.take (tickRead rr st)) = some tr ∧
      st' = tickResult rr st tr := by
  have hlen : st.srcQ.length ≠ 0 := by
    simpa [List.length_eq_zero] using hne
  have hrle : tickRead rr st ≤ st.srcQ.length := tickRead_le rr st
  have hpend := pending_take st (tickRead rr st) hrle
  have hplen := pending_length st (tickRead rr st) hrle
  simp only [pumpTick, if_neg hlen] at h
  simp only [tickRead] at hpend hplen
  rw [hpend, hplen] at h
  cases htr : drainGo acc (min rr (min st.srcQ.length BRIDGE_BUF_SZ)) 0
      (st.srcQ.take (min rr (min st.srcQ.length BRIDGE_BUF_SZ))) with
  | none => rw [htr] at h; exact absurd h (by simp)
  | some tr =>
    rw [htr] at h
    refine ⟨tr, by simpa [tickRead] using htr, ?_⟩
    have := Option.some.inj h
    rw [← this]
    rfl

/-- Under a sink accepting at least one byte per write call, every pump tick
completes, and it conserves the byte stream: the bytes accepted by the sink
followed by the bytes still queued at the source are unchanged. -/
theorem pumpTick_succeeds (rr : Nat) (acc : Nat → Nat) (st : DirState)
    (hacc : ∀ j, 1 ≤ acc j) :
    ∃ st', pumpTick rr acc st = some st' ∧
      st'.sinkLog ++ st'.srcQ = st.sinkLog ++ st.srcQ := by
  by_cases hq : st.srcQ = []
  · exact ⟨st, pumpTick_empty rr acc st hq, rfl⟩
  · have hrle : tickRead rr st ≤ st.srcQ.length := tickRead_le rr st
    have hplen := pending_length st (tickRead rr st) hrle
    obtain ⟨tr, htr⟩ := drainGo_succeeds acc hacc (tickRead rr st) 0
      (st.srcQ.take (tickRead rr st)) (le_of_eq hplen)
    refine ⟨tickResult rr st tr, pumpTick_eq_some rr acc st tr hq htr, ?_⟩
    have hj := drainGo_some_flatten acc _ _ _ _ htr
    simp only [tickResult, hj]
    rw [List.append_assoc, List.take_append_drop]

/-- Multi-tick conservation: over any number of ticks, under a sink that
accepts at least one byte per write call, the run completes and the bytes
accepted by the sink followed by the bytes still queued equal the initial
backlog followed by everything that arrived, in order. -/
theorem runTicksFrom_conserve (arrive : Nat → List Nat) (rr : Nat → Nat)
    (acc : Nat → Nat → Nat) (hacc : ∀ t j, 1 ≤ acc t j) :
    ∀ (T t0 : Nat) (st : DirState),
      ((runTicksFrom arrive rr acc t0 T st).map fun s => s.sinkLog ++ s.srcQ)
        = some (st.sinkLog ++ (st.srcQ ++ arrivedSlice arrive t0 T)) := by
  intro T
  induction T with
  | zero =>
    intro t0 st
    simp [runTicksFrom, arrivedSlice]
  | succ T ih =>
    intro t0 st
    obtain ⟨st', hst', hcons⟩ :=
      pumpTick_succeeds (rr t0) (acc t0) { st with srcQ := st.srcQ ++ arrive t0 } (hacc t0)
    simp only [runTicksFrom, hst']
    rw [ih (t0 + 1) st']
    simp only [arrivedSlice]
    rw [← List.append_assoc, hcons]
    simp

/-- With nothing queued and nothing arriving, any number of consecutive pump
ticks is an exact no-op on the direction state. -/
theorem runTicksFrom_noop (rr : Nat → Nat) (acc : Nat → Nat → Nat) (st : DirState)
    (hq : st.srcQ = []) :
    ∀ (T t0 : Nat), runTicksFrom (fun _ => []) rr acc t0 T st = some st := by
  intro T
  induction T with
  | zero => intro t0; rfl
  | succ T ih =>
    intro t0
    have hst1 : ({ st with srcQ := st.srcQ ++ (fun _ => ([] : List Nat)) t0 } : DirState) = st := by
      cases st
      simp
    simp only [runTicksFrom, hst1, pumpTick_empty _ _ st hq]
    exact ih (t0 + 1)

theorem countFlush_append (a b : List Ev) :
    countFlush (a ++ b) = countFlush a + countFlush b := by
  simp [countFlush, List.countP_append]

theorem countFlush_writes (tr : List (Nat × List Nat)) :
    countFlush (tr.map fun e => Ev.write e.1 e.2) = 0 := by
  induction tr with
  | nil => rfl
  | cons e l ih =>
    simp only [List.map_cons, countFlush, List.countP_cons] at ih ⊢
    simp [ih, Ev.isFlush]

theorem countFlush_read (a b : Nat) : countFlush [Ev.read a b] = 0 := rfl

theorem wire_init_latch (st : HwState) : (wire_init st).wire_inited = true := by
  unfold wire_init
  split
  · next h => exact h
  · rfl

theorem wire_init_of_inited (st : HwState) (h : st.wire_inited = true) :
    wire_init st = st := by
  unfold wire_init
  rw [h]
  simp

theorem wire_init_idem (st : HwState) : wire_init (wire_init st) = wire_init st :=
  wire_init_of_inited _ (wire_init_latch st)

theorem wire_init_iterate (st : HwState) :
    ∀ m, wire_init^[m] (wire_init st) = wire_init st := by
  intro m
  induction m with
  | zero => rfl
  | succ m ih => rw [Function.iterate_succ_apply', ih, wire_init_idem]

theorem loopRun_not_returned {σ : Type} (tick : Nat → σ → Option σ) :
    ∀ (n k : Nat) (c : LoopState σ), c.isReturned = false →
      (loopRun tick k n c).isReturned = false := by
  intro n
  induction n with
  | zero => intro k c h; exact h
  | succ n ih =>
    intro k c h
    simp only [loopRun]
    apply ih
    cases c with
    | running s => cases hts : tick k s <;> simp [loopStep, hts, LoopState.isReturned]
    | stalled s => simp [loopStep, LoopState.isReturned]
    | returned code => simp [LoopState.isReturned] at h

/-- A boot-time hardware state used for concrete instantiations: latch clear,
Far endpoint unconfigured, Near endpoint at 115200 baud with 256-byte
receive/transmit buffers. -/
def hwBoot : HwState :=
  { wire_inited := false, s1baud := 0, s1mode := 0, s1rxPin := 0, s1txPin := 0,
    s1invert := true, s1rxBuf := 128, s1txBuf := 128,
    usbBaud := 115200, usbRxBuf := 256, usbTxBuf := 256, initCount := 0 }

/-- C2 (code_bug evidence): invoking the `receive` command does not transfer
control into the receive-only bridge, and invoking the `send` command does
not transfer control into the send-only bridge — both handlers call
`run_bidi_bridge()` (commands.cpp lines 34 and 44), even though their status
messages and the command help strings announce a single direction.  The last
conjunct evaluates one iteration of the loop the `receive` command actually
enters on an input with traffic only on the USB (Near) source: the loop
forwards it to `Serial1`, which a receive-only (Serial1→USB) bridge would
never write to. -/
theorem C2_command_dispatch :
    dispatch "receive" = some BridgeKind.bidi ∧
    dispatch "send" = some BridgeKind.bidi ∧
    cmd_receive_target ≠ BridgeKind.receiveOnly ∧
    cmd_send_target ≠ BridgeKind.sendOnly ∧
    ((run_bidi_iter (fun _ => ⟨9, fun _ => 9⟩) (fun _ => ⟨9, fun _ => 9⟩) 0
        ⟨⟨[], [], [], []⟩, ⟨[5], [], [], []⟩⟩).map fun s => s.usbToWire.sinkLog)
      = some [5] :=
  ⟨rfl, rfl, by decide, by decide, rfl⟩

/-- C4 (confirmed): once any bridge run loop (`run_receive_bridge`,
`run_send_bridge`, `run_bidi_bridge`) has been entered, it never returns:
after any number of loop iterations, under every environment schedule and
from every start state, the configuration is never `LoopState.returned` —
the loop body has no exit path, so the handler code after the bridge call
(its `return 0`) is unreachable and control never goes back to the console. -/
theorem C4_bridge_never_returns (envR envS envA envB : Nat → TickEnv)
    (n k : Nat) (stR stS : DirState) (stB : BidiState) :
    (loopRun (run_receive_iter envR) k n (LoopState.running stR)).isReturned = false ∧
    (loopRun (run_send_iter envS) k n (LoopState.running stS)).isReturned = false ∧
    (loopRun (run_bidi_iter envA envB) k n (LoopState.running stB)).isReturned = false :=
  ⟨loopRun_not_returned _ n k _ rfl, loopRun_not_returned _ n k _ rfl,
    loopRun_not_returned _ n k _ rfl⟩

/-- C5 (confirmed): `wire_init` is idempotent.  For every `N ≥ 1`, calling it
`N` times (directly, or as the entry step of any bridge, which is the same
function) leaves the hardware configuration exactly as after one call, the
configuration side effects run exactly once from a boot state (latch clear),
and the one-shot latch is set from the first call on. -/
theorem C5_wire_init_idempotent (st : HwState) (N : Nat) (h : 1 ≤ N) :
    wire_init^[N] st = wire_init st ∧
    bridge_entry_init^[N] st = wire_init st ∧
    (st.wire_inited = false → (wire_init^[N] st).initCount = st.initCount + 1) ∧
    (wire_init st).wire_inited = true := by
  obtain ⟨M, rfl⟩ : ∃ M, N = M + 1 := ⟨N - 1, by omega⟩
  have hiter : wire_init^[M + 1] st = wire_init st := by
    rw [Function.iterate_succ_apply]
    exact wire_init_iterate st M
  refine ⟨hiter, hiter, ?_, wire_init_latch st⟩
  intro hfalse
  rw [hiter]
  unfold wire_init
  rw [hfalse]
  simp

/-- Witness for C5 at a concrete boot state and `N = 3`. -/
theorem C5_wire_init_idempotent_witness :
    wire_init^[3] hwBoot = wire_init hwBoot ∧
    (wire_init^[3] hwBoot).initCount = hwBoot.initCount + 1 :=
  ⟨(C5_wire_init_idempotent hwBoot 3 (by decide)).1,
    (C5_wire_init_idempotent hwBoot 3 (by decide)).2.2.1 rfl⟩

/-- C6 (counterexample): `wire_init` does not leave the Near endpoint's state
unchanged — from a boot state whose USB receive/transmit buffer sizes are
256, the first call sets both to 32768 (wire.cpp lines 25-26). -/
theorem C6_near_changed_counterexample :
    (wire_init hwBoot).usbRxBuf ≠ hwBoot.usbRxBuf ∧
    (wire_init hwBoot).usbTxBuf ≠ hwBoot.usbTxBuf := by
  decide

/-- C6 (corrected): `wire_init` configures the Far endpoint's baud rate, frame
mode, pin assignment and buffer sizing, and in addition sets the Near
endpoint's receive and transmit buffer sizes to 32768; the rest of the Near
endpoint's state (its baud rate) is unchanged, and a latched call changes
nothing at all. -/
theorem C6_wire_init_effects (st : HwState) :
    (wire_init st).usbBaud = st.usbBaud ∧
    (st.wire_inited = false →
      (wire_init st).usbRxBuf = 32768 ∧ (wire_init st).usbTxBuf = 32768 ∧
      (wire_init st).s1baud = WIRE_BAUD ∧ (wire_init st).s1mode = SERIAL_8N1 ∧
      (wire_init st).s1rxPin = WIRE_RX_PIN ∧ (wire_init st).s1txPin = WIRE_TX_PIN ∧
      (wire_init st).s1invert = false ∧
      (wire_init st).s1rxBuf = 32768 ∧ (wire_init st).s1txBuf = 32768) ∧
    (st.wire_inited = true → wire_init st = st) := by
  unfold wire_init
  by_cases h : st.wire_inited = true <;> simp [h]

/-- Witness for C6's corrected statement at a concrete boot state. -/
theorem C6_wire_init_effects_witness :
    (wire_init hwBoot).usbBaud = hwBoot.usbBaud ∧
    (wire_init hwBoot).usbRxBuf = 32768 ∧
    (wire_init hwBoot).s1baud = WIRE_BAUD :=
  ⟨(C6_wire_init_effects hwBoot).1,
    ((C6_wire_init_effects hwBoot).2.1 rfl).1,
    ((C6_wire_init_effects hwBoot).2.1 rfl).2.2.1⟩

/-- Concrete input for C1: a direction whose source has 300 bytes queued. -/
def c1State : DirState := ⟨List.replicate 300 7, [], [], []⟩

set_option maxRecDepth 8192

/-- C1 (counterexample): with 300 bytes in the staging buffer, the first
write call of the drain loop requests all 300 bytes from the sink, exceeding
`min(remaining, capacity, 256) = 256` (for the reference capacity 32768 — or
any capacity, since the hard ceiling alone is 256).  The loops apply no cap
at all: wire.cpp line 40 passes `n - off` directly to `write`, and the
capping helper `write_chunk` is never called. -/
theorem C1_uncapped_counterexample :
    ((pumpTick 300 (fun _ => 256) c1State).map fun s => s.events.take 2)
      = some [Ev.read 300 300, Ev.write 300 (List.replicate 256 7)] ∧
    ¬ (300 ≤ min 300 (min 32768 256)) := by
  constructor
  · rfl
  · decide

/-- C1 (corrected): each individual write call issued while draining the
staging buffer requests exactly the bytes remaining to write at that moment
(`n - off`), with no write-capacity or 256-byte cap applied; the unused
helper `write_chunk` is the only place the caps exist — it would bound a
request by 256 always and by the sink's reported capacity when that capacity
is nonzero. -/
theorem C1_write_requests (acc : Nat → Nat) (fuel j : Nat) (pending : List Nat)
    (tr : List (Nat × List Nat)) (h : drainGo acc fuel j pending = some tr) :
    reqsExact pending.length tr = true ∧
    (∀ room n, write_chunk room n ≤ min n 256 ∧
      (room ≠ 0 → write_chunk room n ≤ room)) := by
  refine ⟨drainGo_reqs acc fuel j pending tr h, ?_⟩
  intro room n
  simp only [write_chunk]
  constructor
  · split <;> split <;> omega
  · intro hroom
    split <;> split <;> omega

/-- Witness for C1's corrected statement on a concrete three-byte drain. -/
theorem C1_write_requests_witness :
    reqsExact ([9, 9, 9] : List Nat).length [(3, [9]), (2, [9]), (1, [9])] = true :=
  (C1_write_requests (fun _ => 1) 3 0 [9, 9, 9] [(3, [9]), (2, [9]), (1, [9])]
    (by decide)).1

/-- C3 (confirmed): for every byte sequence delivered at the source (any
arrival schedule), every chunking across ticks, partial reads and partial
writes (any read-return and write-acceptance schedules, each write accepting
at least one byte), the bytes accepted by the sink followed by the bytes
still queued equal the initial backlog followed by all arrived bytes, in
order — no byte lost, duplicated or reordered; when the run has consumed the
whole queue, the sink has received exactly the full sequence. -/
theorem C3_order_preservation (arrive : Nat → List Nat) (rr : Nat → Nat)
    (acc : Nat → Nat → Nat) (T : Nat) (st : DirState)
    (hacc : ∀ t j, 1 ≤ acc t j) :
    ((runTicks arrive rr acc T st).map fun s => s.sinkLog ++ s.srcQ)
      = some (st.sinkLog ++ (st.srcQ ++ arrivedSlice arrive 0 T)) ∧
    (∀ s, runTicks arrive rr acc T st = some s → s.srcQ = [] →
      s.sinkLog = st.sinkLog ++ (st.srcQ ++ arrivedSlice arrive 0 T)) := by
  have h := runTicksFrom_conserve arrive rr acc hacc T 0 st
  refine ⟨h, ?_⟩
  intro s hs hq
  unfold runTicks at hs
  rw [hs] at h
  simp only [Option.map_some'] at h
  have h2 := Option.some.inj h
  rw [hq, List.append_nil] at h2
  exact h2

/-- Arrival schedule for the C3 witness: four bytes arrive before tick 0. -/
def c3Arrive : Nat → List Nat := fun t => if t = 0 then [1, 2, 3, 4] else []

/-- Witness for C3: the four bytes cross in two-byte partial reads and
one-byte partial writes over three ticks and come out in order. -/
theorem C3_order_preservation_witness :
    ((runTicks c3Arrive (fun _ => 2) (fun _ _ => 1) 3 ⟨[], [], [], []⟩).map
      fun s => s.sinkLog ++ s.srcQ) = some [1, 2, 3, 4] :=
  (C3_order_preservation c3Arrive (fun _ => 2) (fun _ _ => 1) 3 ⟨[], [], [], []⟩
    (fun _ _ => le_rfl)).1

/-- C7 (confirmed): a pump tick whose source reports zero bytes available is
a complete no-op — the direction state (staging buffer, sink log, event log)
is returned unchanged, so no read, write or flush call happens and the tick
completes; over any number of consecutive such ticks, zero write calls occur
on the sink. -/
theorem C7_zero_available_noop (rr : Nat → Nat) (acc : Nat → Nat → Nat)
    (st : DirState) (T t0 : Nat) (h : st.srcQ = []) :
    pumpTick (rr t0) (acc t0) st = some st ∧
    runTicksFrom (fun _ => []) rr acc t0 T st = some st :=
  ⟨pumpTick_empty _ _ st h, runTicksFrom_noop rr acc st h T t0⟩

/-- Witness for C7: 1000 consecutive zero-available ticks leave the state
untouched. -/
theorem C7_zero_available_noop_witness :
    pumpTick 5 (fun _ => 1) ⟨[], [3], [1, 2], [Ev.flush false]⟩
      = some ⟨[], [3], [1, 2], [Ev.flush false]⟩ ∧
    runTicksFrom (fun _ => []) (fun _ => 5) (fun _ _ => 1) 0 1000
      ⟨[], [3], [1, 2], [Ev.flush false]⟩ = some ⟨[], [3], [1, 2], [Ev.flush false]⟩ :=
  C7_zero_available_noop (fun _ => 5) (fun _ _ => 1) ⟨[], [3], [1, 2], [Ev.flush false]⟩
    1000 0 rfl

/-- C8 (confirmed): the two directions of the bidirectional bridge are
independent.  If only the Near→Far direction has data (the Far→Near source
queue is empty), the Far→Near direction state — its staging buffer, its
sink's accepted bytes and its event log — comes out of the loop iteration
unchanged (zero write calls on that sink), and symmetrically; moreover each
direction's outcome is exactly the one-direction pump of its own state, so
neither direction's staging buffer or endpoints are touched by the other. -/
theorem C8_direction_independence (envA envB : TickEnv) (st : BidiState)
    (haccA : ∀ j, 1 ≤ envA.acc j) (haccB : ∀ j, 1 ≤ envB.acc j) :
    (st.wireToUsb.srcQ = [] →
      ((bidiTick envA envB st).map fun s => s.wireToUsb) = some st.wireToUsb) ∧
    (st.usbToWire.srcQ = [] →
      ((bidiTick envA envB st).map fun s => s.usbToWire) = some st.usbToWire) ∧
    (∀ s', bidiTick envA envB st = some s' →
      pumpTick envA.rr envA.acc st.wireToUsb = some s'.wireToUsb ∧
      pumpTick envB.rr envB.acc st.usbToWire = some s'.usbToWire) := by
  obtain ⟨dA, hdA, -⟩ := pumpTick_succeeds envA.rr envA.acc st.wireToUsb haccA
  obtain ⟨dB, hdB, -⟩ := pumpTick_succeeds envB.rr envB.acc st.usbToWire haccB
  refine ⟨?_, ?_, ?_⟩
  · intro hq
    simp [bidiTick, pumpTick_empty envA.rr envA.acc _ hq, hdB]
  · intro hq
    simp [bidiTick, hdA, pumpTick_empty envB.rr envB.acc _ hq]
  · intro s' hs'
    simp only [bidiTick, hdA, hdB] at hs'
    obtain rfl := Option.some.inj hs'
    exact ⟨hdA, hdB⟩

/-- Witness for C8: data only on the Near→Far direction, the Far→Near
direction state is untouched. -/
theorem C8_direction_independence_witness :
    ((bidiTick ⟨5, fun _ => 1⟩ ⟨5, fun _ => 1⟩
        ⟨⟨[], [], [], []⟩, ⟨[8, 9], [], [], []⟩⟩).map fun s => s.wireToUsb)
      = some ⟨[], [], [], []⟩ :=
  (C8_direction_independence ⟨5, fun _ => 1⟩ ⟨5, fun _ => 1⟩
    ⟨⟨[], [], [], []⟩, ⟨[8, 9], [], [], []⟩⟩
    (fun _ => le_rfl) (fun _ => le_rfl)).1 rfl

/-- Concrete C9 counterexample input: one byte available at the source. -/
def c9Stall : DirState := ⟨[7], [], [], []⟩

/-- C9 (counterexample): in a tick where the source reported one byte
available but the read returned zero bytes (a permitted partial read), no
data is moved — the sink's accepted-byte log stays empty — yet flush is
still invoked once: wire.cpp guards the flush by the pre-read availability
count (line 36), not by the number of bytes moved. -/
theorem C9_flush_no_data_counterexample :
    ((pumpTick 0 (fun _ => 1) c9Stall).map
      fun s => (s.sinkLog, countFlush s.events)) = some ([], 1) := rfl

/-- C9 (corrected): in every pump tick whose source reported at least one
available byte, the sink's flush is invoked exactly once, in the
non-blocking variant (`flush false`), as the last endpoint call of the tick
— after all write calls; a tick whose source reported zero available
performs no flush (it is a no-op).  The correction: flush is keyed to the
reported availability, so a tick whose read returned zero bytes still
flushes even though no data was moved. -/
theorem C9_flush_per_tick (rr : Nat) (acc : Nat → Nat) (st st' : DirState)
    (h : pumpTick rr acc st = some st') :
    (st.srcQ = [] → st' = st) ∧
    (st.srcQ ≠ [] →
      countFlush (st'.events.drop st.events.length) = 1 ∧
      (st'.events.drop st.events.length).getLast? = some (Ev.flush false) ∧
      countFlush (st'.events.drop st.events.length).dropLast = 0) := by
  constructor
  · intro hq
    rw [pumpTick_empty rr acc st hq] at h
    exact (Option.some.inj h).symm
  · intro hne
    obtain ⟨tr, htr, rfl⟩ := pumpTick_some_inv rr acc st st' hne h
    have hform : (tickResult rr st tr).events.drop st.events.length
        = ([Ev.read (min st.srcQ.length BRIDGE_BUF_SZ) (tickRead rr st)]
            ++ tr.map (fun e => Ev.write e.1 e.2)) ++ [Ev.flush false] := by
      simp only [tickResult, List.append_assoc]
      rw [List.drop_left, ← List.append_assoc]
    rw [hform]
    refine ⟨?_, ?_, ?_⟩
    · rw [countFlush_append, countFlush_append, countFlush_writes, countFlush_read]
      rfl
    · rw [List.getLast?_concat]
    · rw [List.dropLast_concat, countFlush_append, countFlush_writes, countFlush_read]

/-- Post-state for the C9 witness tick. -/
def c9Out : DirState := ⟨[], [7], [7], [Ev.read 1 1, Ev.write 1 [7], Ev.flush false]⟩

/-- Witness for C9's corrected statement: a one-byte tick flushes exactly
once, non-blocking, after its write. -/
theorem C9_flush_per_tick_witness :
    countFlush (c9Out.events.drop c9Stall.events.length) = 1 ∧
    (c9Out.events.drop c9Stall.events.length).getLast? = some (Ev.flush false) ∧
    countFlush (c9Out.events.drop c9Stall.events.length).dropLast = 0 :=
  (C9_flush_per_tick 1 (fun _ => 1) c9Stall c9Out (by decide)).2 (by decide)

/-- C10 (confirmed): the inner write loop of a pump tick terminates exactly
when the cumulative counts returned by the sink's write calls reach the
number of bytes read.  Under a sink accepting at least one byte per call it
completes within `n` calls having written exactly the `n` bytes read; any
completed drain has written exactly the bytes read; and against a sink whose
writes persistently return zero, the loop never completes for any number of
iterations — it has no iteration bound, timeout or byte-drop path. -/
theorem C10_drain_termination (acc : Nat → Nat) (pending : List Nat) (j : Nat) :
    ((∀ i, 1 ≤ acc i) → ∃ tr, drainGo acc pending.length j pending = some tr ∧
        totalBytes tr = pending.length ∧ joinBytes tr = pending) ∧
    ((∀ i, acc i = 0) → pending ≠ [] → ∀ fuel, drainGo acc fuel j pending = none) ∧
    (∀ fuel tr, drainGo acc fuel j pending = some tr →
      totalBytes tr = pending.length ∧ joinBytes tr = pending) := by
  refine ⟨?_, ?_, ?_⟩
  · intro hacc
    obtain ⟨tr, htr⟩ := drainGo_succeeds acc hacc pending.length j pending le_rfl
    have hj := drainGo_some_flatten acc _ _ _ _ htr
    exact ⟨tr, htr, by rw [totalBytes_eq_length, hj], hj⟩
  · intro hacc hne fuel
    cases pending with
    | nil => exact absurd rfl hne
    | cons p ps => exact drainGo_stuck acc hacc fuel j p ps
  · intro fuel tr htr
    have hj := drainGo_some_flatten acc fuel j pending tr htr
    exact ⟨by rw [totalBytes_eq_length, hj], hj⟩

/-- Witness for C10 on a concrete two-byte drain completing in two one-byte
writes. -/
theorem C10_drain_termination_witness :
    totalBytes [(2, [4]), (1, [5])] = ([4, 5] : List Nat).length ∧
    joinBytes [(2, [4]), (1, [5])] = [4, 5] :=
  (C10_drain_termination (fun _ => 1) [4, 5] 0).2.2 2 [(2, [4]), (1, [5])] (by decide)

end Wire
